import Mathlib

/-!
Verification of the `Dataset` / `Datasets` layer of gammapy
(`gammapy/modeling/datasets.py`) against its specification.

Embedding conventions:
* numpy boolean arrays become `List Bool`; statistic arrays become `List ℚ`
  (the `dtype=np.float64` accumulation of `np.sum` is modelled as exact
  rational arithmetic);
* counts arrays are `List ℕ` (they are integer-exact in the source and tests);
* a Python object's class (used by `is_all_same_type`) becomes a `kind : ℕ` tag;
* raising an exception becomes returning `Except ErrKind _`; the Python
  exception classes that appear in the source are the constructors of `ErrKind`;
* the abstract method `stat_array()` is modelled by the field `stat_data`:
  the per-bin statistic values of the dataset at its current model parameters.
-/

/-- The Python exception classes raised by the code under study. -/
inductive ErrKind where
  | valueError
  | typeError
  | indexError
  | keyError
deriving DecidableEq, Repr

/-- A `Dataset` (abstract base class of `gammapy/modeling/datasets.py`) at a
fixed model state: its name, its Python class tag (`kind`), the optional safe
and fit masks, the per-bin statistic values produced by the subclass's
`stat_array()` (`stat_data`), and the fields used by spectrum-dataset
stacking (`counts`, `counts_off`, `livetime`). -/
structure Dataset where
  name : String
  kind : ℕ
  mask_safe : Option (List Bool)
  mask_fit : Option (List Bool)
  stat_data : List ℚ
  counts : List ℕ
  counts_off : List ℕ
  livetime : Option ℚ
deriving DecidableEq, Repr

/-- `Dataset.mask`: the combined fit and safe mask, transcribed from the
`if/elif` chain of the source property (the `WcsNDMap` unwrapping of the
source is the identity here, since masks are already plain arrays). -/
def Dataset.mask (d : Dataset) : Option (List Bool) :=
  match d.mask_safe, d.mask_fit with
  | some ms, some mf => some (List.zipWith and ms mf)
  | none, some mf => some mf
  | some ms, none => some ms
  | none, none => none

/-- numpy boolean-mask indexing `xs[m]` for same-shape `m`: the elements of
`xs` at the positions where `m` is `true`, in order. -/
def maskIndex (xs : List ℚ) (m : List Bool) : List ℚ :=
  (xs.zip m).filterMap (fun p => if p.2 then some p.1 else none)

/-- `Dataset.stat_sum`: total statistic — `stat_array()` restricted to `mask`
when a mask is present, then summed (`np.sum(stat, dtype=np.float64)`). -/
def Dataset.stat_sum (d : Dataset) : ℚ :=
  match d.mask with
  | none => d.stat_data.sum
  | some m => (maskIndex d.stat_data m).sum

/-- `make_name(name)`: returns `name` when given, otherwise a fresh
generated name (the uuid draw is passed in explicitly as `fresh`). -/
def make_name (name : Option String) (fresh : String) : String :=
  name.getD fresh

/-- `Dataset.copy(name)`: a deep copy whose `_name` is `make_name name`. -/
def Dataset.copy (d : Dataset) (name : Option String) (fresh : String) : Dataset :=
  { d with name := make_name name fresh }

/-- Whether bin `i` of dataset `d` is included by the combined mask
(`true` everywhere when the mask is absent). -/
def Dataset.maskAt (d : Dataset) (i : ℕ) : Bool :=
  match d.mask with
  | none => true
  | some m => m.getD i false

/-- Shape invariant used by `stat_sum`: numpy boolean indexing `stat[mask]`
requires the mask to have the shape of the statistic array. -/
def Dataset.maskShapeOk (d : Dataset) : Bool :=
  match d.mask with
  | none => true
  | some m => m.length == d.stat_data.length

/-- The duplicate-name scan of `Datasets.__init__`: walk the datasets keeping
the `unique_names` accumulator and raise `ValueError` at the first repeat. -/
def checkUniqueNames : List Dataset → List String → Except ErrKind Unit
  | [], _ => .ok ()
  | d :: ds, seen =>
    if d.name ∈ seen then .error .valueError
    else checkUniqueNames ds (seen ++ [d.name])

/-- `Datasets`: the collection, wrapping the `_datasets` list. -/
structure Datasets where
  _datasets : List Dataset
deriving DecidableEq, Repr

/-- `Datasets.__init__` from a list of datasets (the list branch of the
source constructor): scan for duplicate names, then store the list. -/
def Datasets.init (l : List Dataset) : Except ErrKind Datasets :=
  (checkUniqueNames l []).map (fun _ => ⟨l⟩)

/-- `Datasets.names`. -/
def Datasets.names (c : Datasets) : List String :=
  c._datasets.map Dataset.name

/-- `Datasets.is_all_same_type`: `len(set(_.__class__ for _ in self)) == 1`. -/
def Datasets.is_all_same_type (c : Datasets) : Bool :=
  (c._datasets.map Dataset.kind).eraseDups.length == 1

/-- `Datasets.stat_sum`: the joint likelihood, accumulated over the members
with the source's `stat_sum += dataset.stat_sum()` loop starting from `0`. -/
def Datasets.stat_sum (c : Datasets) : ℚ :=
  c._datasets.foldl (fun acc d => acc + d.stat_sum) 0

/-- `Datasets.insert`: reject a duplicate name with `ValueError`, otherwise
insert into `_datasets` at `idx` (Python `list.insert` clamps the index). -/
def Datasets.insert (c : Datasets) (idx : ℕ) (d : Dataset) : Except ErrKind Datasets :=
  if d.name ∈ c.names then .error .valueError
  else .ok ⟨c._datasets.insertIdx (min idx c._datasets.length) d⟩

/-- `Datasets.__setitem__` with an integer key: reject a duplicate name with
`ValueError` before touching the list, then `self._datasets[key] = dataset`
(`IndexError` out of range). -/
def Datasets.setitem (c : Datasets) (key : ℕ) (d : Dataset) : Except ErrKind Datasets :=
  if d.name ∈ c.names then .error .valueError
  else if key < c._datasets.length then .ok ⟨c._datasets.set key d⟩
  else .error .indexError

/-- `Datasets.__delitem__` with an integer key: `del self._datasets[key]`. -/
def Datasets.delitem (c : Datasets) (key : ℕ) : Except ErrKind Datasets :=
  if key < c._datasets.length then .ok ⟨c._datasets.eraseIdx key⟩
  else .error .indexError

/-- Python exception semantics of `datasets[key] = d`: on an exception the
collection keeps its prior state (the name check precedes any mutation). -/
def Datasets.applySetitem (c : Datasets) (key : ℕ) (d : Dataset) :
    Datasets × Option ErrKind :=
  match c.setitem key d with
  | .ok c2 => (c2, none)
  | .error e => (c, some e)

/-- Modelled from the spec: the safe mask that stacking actually applies
(`SpectrumDataset.stack` is not under `src/`); an absent `mask_safe`
defaults to all bins included. -/
def Dataset.msafe (d : Dataset) : List Bool :=
  d.mask_safe.getD (List.replicate d.counts.length true)

/-- Counts retained under a safe mask: bins outside the mask contribute 0. -/
def maskedNat (xs : List ℕ) (m : List Bool) : List ℕ :=
  List.zipWith (fun x b => if b then x else 0) xs m

/-- Modelled from the spec: the stacked state produced by a successful
`Dataset.stack(other)` for spectrum-like datasets (the implementation is not
under `src/`): counts and off-counts accumulate under the respective safe
masks, the safe mask becomes the union, and livetime adds. The result is the
new state of `self`; `other` is not modified. -/
def stackData (self other : Dataset) : Dataset :=
  { self with
    counts := List.zipWith (fun x y => x + y)
      (maskedNat self.counts self.msafe) (maskedNat other.counts other.msafe)
    counts_off := List.zipWith (fun x y => x + y)
      (maskedNat self.counts_off self.msafe) (maskedNat other.counts_off other.msafe)
    mask_safe := some (List.zipWith or self.msafe other.msafe)
    livetime := some (self.livetime.getD 0 + other.livetime.getD 0) }

/-- Modelled from the spec: `Dataset.stack(other)`, the in-place merge of
`other` into `self` — it fails with `ValueError` when either dataset has no
livetime set (the response weighting is undefined), and otherwise produces
`stackData self other`. -/
def Dataset.stack (self other : Dataset) : Except ErrKind Dataset :=
  if self.livetime.isNone || other.livetime.isNone then .error .valueError
  else .ok (stackData self other)

/-- `Datasets.stack_reduce(name)`: `ValueError` unless all members share one
type, otherwise fold `stack` over `self[0].copy(name=name)` with `self[1:]`
(`self[0]` on an empty collection would raise `IndexError`, but the type
check already fails there since an empty set of classes has size 0). -/
def Datasets.stack_reduce (c : Datasets) (name : Option String) (fresh : String) :
    Except ErrKind Dataset :=
  if c.is_all_same_type = false then .error .valueError
  else match c._datasets with
    | [] => .error .indexError
    | d :: rest => rest.foldlM Dataset.stack (d.copy name fresh)

/-- A Python heap fragment: `Dataset` objects addressed by object id. -/
abbrev Store : Type := List (ℕ × Dataset)

/-- Read the object at id `i`. -/
def Store.get? (s : Store) (i : ℕ) : Option Dataset :=
  (List.find? (fun p => p.1 == i) s).map Prod.snd

/-- Overwrite the object at id `i` in place. -/
def Store.set (s : Store) (i : ℕ) (v : Dataset) : Store :=
  List.map (fun p => if p.1 == i then (i, v) else p) s

/-- `dataset.stack(ds)` as a heap operation: read both objects, run the
merge, and write the merged state back to `self`'s id only. -/
def Store.stackInPlace (s : Store) (selfId otherId : ℕ) : Except ErrKind Store :=
  match s.get? selfId, s.get? otherId with
  | some a, some b => (a.stack b).map (fun r => s.set selfId r)
  | _, _ => .error .keyError

/-- `Datasets.stack_reduce` with the Python object graph made explicit: the
collection holds the references `ids` into the heap `s`; `self[0].copy(name)`
allocates the deep copy at the fresh id `freshId`, and the `for` loop stacks
each remaining member into that copy in place. -/
def Store.stackReduce (s : Store) (ids : List ℕ) (freshId : ℕ)
    (name : Option String) (fresh : String) : Except ErrKind Store :=
  if (Datasets.mk (ids.filterMap s.get?)).is_all_same_type = false then
    .error .valueError
  else match ids with
    | [] => .error .indexError
    | i0 :: rest =>
      match s.get? i0 with
      | none => .error .keyError
      | some d0 =>
        rest.foldlM (fun st oid => Store.stackInPlace st freshId oid)
          ((freshId, d0.copy name fresh) :: s)

/-- A YAML-like value tree, the target of dataset serialization. -/
inductive Val where
  | vstr (s : String)
  | vnat (n : ℕ)
  | vrat (q : ℚ)
  | vbool (b : Bool)
  | vlist (l : List Val)
  | vnone
deriving Repr

/-- Serialize an optional boolean array. -/
def optBoolVal (o : Option (List Bool)) : Val :=
  match o with
  | none => .vnone
  | some m => .vlist (m.map Val.vbool)

/-- Serialize an optional scalar. -/
def optRatVal (o : Option ℚ) : Val :=
  match o with
  | none => .vnone
  | some q => .vrat q

/-- Modelled from the spec: the serialized form of one dataset written by
`Datasets.write` (`gammapy/modeling/serialize.py` is not under `src/`):
every field of the dataset, in a fixed order. -/
def dataset_to_dict (d : Dataset) : List Val :=
  [.vstr d.name, .vnat d.kind, optBoolVal d.mask_safe, optBoolVal d.mask_fit,
   .vlist (d.stat_data.map Val.vrat), .vlist (d.counts.map Val.vnat),
   .vlist (d.counts_off.map Val.vnat), optRatVal d.livetime]

/-- Decode one natural-number entry. -/
def decNat : Val → Option ℕ
  | .vnat n => some n
  | _ => none

/-- Decode one rational entry. -/
def decRat : Val → Option ℚ
  | .vrat q => some q
  | _ => none

/-- Decode one boolean entry. -/
def decBool : Val → Option Bool
  | .vbool b => some b
  | _ => none

/-- Decode a whole list, failing if any entry fails. -/
def decodeList {σ α : Type} (f : σ → Option α) : List σ → Option (List α)
  | [] => some []
  | v :: vs =>
    match f v, decodeList f vs with
    | some a, some as => some (a :: as)
    | _, _ => none

/-- Decode a natural-number array. -/
def decodeNatList (v : Val) : Option (List ℕ) :=
  match v with
  | .vlist l => decodeList decNat l
  | _ => none

/-- Decode a rational array. -/
def decodeRatList (v : Val) : Option (List ℚ) :=
  match v with
  | .vlist l => decodeList decRat l
  | _ => none

/-- Decode an optional boolean array. -/
def decodeOptBool (v : Val) : Option (Option (List Bool)) :=
  match v with
  | .vnone => some none
  | .vlist l => Option.map some (decodeList decBool l)
  | _ => none

/-- Decode an optional scalar. -/
def decodeOptRat (v : Val) : Option (Option ℚ) :=
  match v with
  | .vnone => some none
  | .vrat q => some (some q)
  | _ => none

/-- Modelled from the spec: deserialization of one dataset, inverse of
`dataset_to_dict`; fails on a malformed record. -/
def dict_to_dataset (kv : List Val) : Option Dataset :=
  match kv with
  | [.vstr name, .vnat kind, vms, vmf, .vlist vsd, vc, vco, vlt] =>
    match decodeOptBool vms, decodeOptBool vmf,
        decodeRatList (.vlist vsd), decodeNatList vc,
        decodeNatList vco, decodeOptRat vlt with
    | some ms, some mf, some sd, some cs, some co, some lt =>
      some ⟨name, kind, ms, mf, sd, cs, co, lt⟩
    | _, _, _, _, _, _ => none
  | _ => none

/-- Modelled from the spec: `Datasets.write` — serialize every member of the
collection, in order. -/
def Datasets.write (c : Datasets) : List (List Val) :=
  c._datasets.map dataset_to_dict

/-- Modelled from the spec: `Datasets.read` — decode every member
(`dict_to_datasets`) and rebuild the collection through the constructor,
which re-runs the duplicate-name check. -/
def Datasets.read (file : List (List Val)) : Except ErrKind Datasets :=
  match decodeList dict_to_dataset file with
  | none => .error .valueError
  | some l => Datasets.init l

/-- Concrete dataset used to instantiate the theorems below. -/
def dA : Dataset :=
  ⟨"a", 0, some [true, false, true], none, [1, 2, 3], [1, 2, 3], [0, 1, 0], some 10⟩

/-- Concrete dataset with both masks set. -/
def dB : Dataset :=
  ⟨"b", 0, some [false, true, true], some [true, true, false], [4, 5, 6],
   [4, 0, 2], [1, 1, 1], some 5⟩

/-- Concrete dataset with no masks. -/
def dC : Dataset :=
  ⟨"c", 0, none, none, [1, 1, 1], [2, 2, 2], [3, 3, 3], some 7⟩

/-- Concrete dataset of a different Python class and with no livetime. -/
def dD : Dataset :=
  ⟨"d", 1, none, none, [2], [1], [1], none⟩

/-- Concrete heap: `dA` at object id 0 and `dB` at object id 1. -/
def s0 : Store := [(0, dA), (1, dB)]

/-- The dataset obtained by stacking `dB` into a copy of `dA` named `stk`. -/
def rAB : Dataset :=
  ⟨"stk", 0, some [true, true, true], none, [1, 2, 3], [1, 0, 5], [0, 1, 1],
   some 15⟩

/-- Helper: summing a masked list equals the indicator-weighted sum over all
positions, when the mask has the same shape as the data. -/
theorem maskIndex_sum_eq (xs : List ℚ) (m : List Bool) (h : m.length = xs.length) :
    (maskIndex xs m).sum =
      ∑ i ∈ Finset.range xs.length, if m.getD i false then xs.getD i 0 else 0 := by
  induction xs generalizing m with
  | nil => simp [maskIndex]
  | cons x xs ih =>
    match m with
    | [] => simp at h
    | b :: m =>
      simp only [List.length_cons, Nat.succ_inj] at h
      have hx : maskIndex (x :: xs) (b :: m) = (if b then [x] else []) ++ maskIndex xs m := by
        cases b <;> simp [maskIndex]
      rw [hx, List.sum_append, ih m h, List.length_cons, Finset.sum_range_succ']
      simp only [List.getD_cons_succ, List.getD_cons_zero]
      cases b <;> simp [add_comm]

/-- Helper: a list's sum as a sum over positions. -/
theorem list_sum_eq_range_getD (xs : List ℚ) :
    xs.sum = ∑ i ∈ Finset.range xs.length, xs.getD i 0 := by
  induction xs with
  | nil => simp
  | cons x xs ih =>
    rw [List.sum_cons, ih, List.length_cons, Finset.sum_range_succ']
    simp [add_comm]

/-- C1: `stat_sum()` equals the sum of `stat_array()` over exactly the bins
where the combined mask is `true` (every bin when the mask is absent); the
`np.sum(..., dtype=np.float64)` accumulation of the source is modelled as
exact arithmetic. -/
theorem C1_stat_sum_eq_masked_sum (d : Dataset) (h : d.maskShapeOk = true) :
    d.stat_sum = ∑ i ∈ Finset.range d.stat_data.length,
      if d.maskAt i then d.stat_data.getD i 0 else 0 := by
  unfold Dataset.maskShapeOk at h
  cases hm : d.mask with
  | none =>
    simp only [Dataset.stat_sum, Dataset.maskAt, hm]
    simpa using list_sum_eq_range_getD d.stat_data
  | some m =>
    rw [hm] at h
    simp only [Dataset.stat_sum, Dataset.maskAt, hm]
    exact maskIndex_sum_eq d.stat_data m (by simpa using h)

/-- C1 witness: the masked statistic sum of the concrete dataset `dA`. -/
theorem C1_stat_sum_eq_masked_sum_witness :
    dA.maskShapeOk = true ∧
      dA.stat_sum = ∑ i ∈ Finset.range dA.stat_data.length,
        if dA.maskAt i then dA.stat_data.getD i 0 else 0 :=
  ⟨by decide, C1_stat_sum_eq_masked_sum dA (by decide)⟩

/-- Helper: the `stat_sum += dataset.stat_sum()` loop from any start value. -/
theorem foldl_add_stat_sum (l : List Dataset) :
    ∀ a : ℚ, l.foldl (fun acc d => acc + d.stat_sum) a
      = a + (l.map Dataset.stat_sum).sum := by
  induction l with
  | nil => intro a; simp
  | cons d ds ih => intro a; simp [ih, add_assoc]

/-- C2: the joint likelihood of a collection equals the sum over the member
datasets of their `stat_sum()`, and is `0` for an empty collection. -/
theorem C2_joint_stat_sum (c : Datasets) :
    c.stat_sum = (c._datasets.map Dataset.stat_sum).sum ∧
      Datasets.stat_sum ⟨[]⟩ = 0 := by
  refine ⟨?_, rfl⟩
  rw [Datasets.stat_sum, foldl_add_stat_sum]
  ring

/-- Helper: pointwise value of the elementwise AND of two same-length masks. -/
theorem zipWith_and_getD (ms mf : List Bool) (h : ms.length = mf.length)
    (i : ℕ) (hi : i < ms.length) :
    (List.zipWith and ms mf).getD i false = (ms.getD i false && mf.getD i false) := by
  have h1 : i < mf.length := h ▸ hi
  have hlen : i < (List.zipWith and ms mf).length := by
    rw [List.length_zipWith]
    exact lt_min hi h1
  rw [List.getD_eq_getElem?_getD, List.getElem?_eq_getElem hlen, Option.getD_some,
    List.getElem_zipWith,
    List.getD_eq_getElem?_getD, List.getElem?_eq_getElem hi, Option.getD_some,
    List.getD_eq_getElem?_getD, List.getElem?_eq_getElem h1, Option.getD_some]

/-- C7: the combined mask is `mask_safe AND mask_fit` when both are present
(elementwise AND for same-shape masks), the single present mask when only one
is present, and absent when both are — in which case `stat_sum` sums every
bin. -/
theorem C7_mask_combination (d : Dataset) :
    (∀ ms mf, d.mask_safe = some ms → d.mask_fit = some mf →
      d.mask = some (List.zipWith and ms mf) ∧
        (ms.length = mf.length → ∀ i, i < ms.length →
          (List.zipWith and ms mf).getD i false
            = (ms.getD i false && mf.getD i false))) ∧
    (∀ mf, d.mask_safe = none → d.mask_fit = some mf → d.mask = some mf) ∧
    (∀ ms, d.mask_safe = some ms → d.mask_fit = none → d.mask = some ms) ∧
    (d.mask_safe = none → d.mask_fit = none →
      d.mask = none ∧ d.stat_sum = d.stat_data.sum) := by
  refine ⟨?_, ?_, ?_, ?_⟩
  · intro ms mf hs hf
    exact ⟨by simp [Dataset.mask, hs, hf],
      fun hlen i hi => zipWith_and_getD ms mf hlen i hi⟩
  · intro mf hs hf
    simp [Dataset.mask, hs, hf]
  · intro ms hs hf
    simp [Dataset.mask, hs, hf]
  · intro hs hf
    have hm : d.mask = none := by simp [Dataset.mask, hs, hf]
    exact ⟨hm, by simp [Dataset.stat_sum, hm]⟩

/-- C7 witness: the mask cases evaluated on the concrete datasets `dB`
(both masks present) and `dC` (no masks). -/
theorem C7_mask_combination_witness :
    dB.mask = some [false, true, false] ∧
      (List.zipWith and [false, true, true] [true, true, false]).getD 1 false
        = ([false, true, true].getD 1 false && [true, true, false].getD 1 false) ∧
      dC.mask = none ∧ dC.stat_sum = dC.stat_data.sum := by
  refine ⟨?_, ?_, ?_, ?_⟩
  · have h := ((C7_mask_combination dB).1 [false, true, true] [true, true, false]
      rfl rfl).1
    have h2 : List.zipWith and [false, true, true] [true, true, false]
        = [false, true, false] := rfl
    exact h2 ▸ h
  · exact ((C7_mask_combination dB).1 [false, true, true] [true, true, false]
      rfl rfl).2 (by decide) 1 (by decide)
  · exact ((C7_mask_combination dC).2.2.2 rfl rfl).1
  · exact ((C7_mask_combination dC).2.2.2 rfl rfl).2

/-- Helper: the duplicate-name scan succeeds exactly when the names are
pairwise distinct and avoid the accumulator. -/
theorem checkUniqueNames_ok_iff (l : List Dataset) :
    ∀ seen, checkUniqueNames l seen = .ok () ↔
      ((l.map Dataset.name).Nodup ∧ ∀ d ∈ l, d.name ∉ seen) := by
  induction l with
  | nil => intro seen; simp [checkUniqueNames]
  | cons d ds ih =>
    intro seen
    by_cases h : d.name ∈ seen
    · rw [checkUniqueNames, if_pos h]
      constructor
      · intro he; cases he
      · rintro ⟨-, hall⟩
        exact absurd h (hall d (List.mem_cons_self d ds))
    · rw [checkUniqueNames, if_neg h, ih]
      constructor
      · rintro ⟨hnd, hall⟩
        rw [List.map_cons, List.nodup_cons]
        refine ⟨⟨?_, hnd⟩, ?_⟩
        · intro hmem
          rcases List.mem_map.mp hmem with ⟨d', hd', he⟩
          have h2 := hall d' hd'
          simp only [List.mem_append, List.mem_singleton, not_or] at h2
          exact h2.2 he
        · intro d' hd'
          rcases List.mem_cons.mp hd' with he | hd''
          · exact he ▸ h
          · have h2 := hall d' hd''
            simp only [List.mem_append, List.mem_singleton, not_or] at h2
            exact h2.1
      · rintro ⟨hnd, hall⟩
        rw [List.map_cons, List.nodup_cons] at hnd
        rcases hnd with ⟨hnotin, hnd'⟩
        refine ⟨hnd', ?_⟩
        intro d' hd'
        simp only [List.mem_append, List.mem_singleton, not_or]
        exact ⟨hall d' (List.mem_cons_of_mem d hd'),
          fun he => hnotin (List.mem_map.mpr ⟨d', hd', he⟩)⟩

/-- Helper: the duplicate-name scan either succeeds or raises `ValueError`. -/
theorem checkUniqueNames_ok_or_err (l : List Dataset) :
    ∀ seen, checkUniqueNames l seen = .ok () ∨
      checkUniqueNames l seen = .error .valueError := by
  induction l with
  | nil => intro seen; exact Or.inl rfl
  | cons d ds ih =>
    intro seen
    by_cases h : d.name ∈ seen
    · right; rw [checkUniqueNames, if_pos h]
    · rw [checkUniqueNames, if_neg h]
      exact ih (seen ++ [d.name])

/-- Helper: replacing an element by a value not present in a duplicate-free
list keeps the list duplicate-free. -/
theorem nodup_set_of_not_mem {α : Type} (xs : List α) (k : ℕ) (y : α) :
    xs.Nodup → y ∉ xs → (xs.set k y).Nodup := by
  induction xs generalizing k with
  | nil => intro _ _; simp
  | cons x xs ih =>
    intro hnd hy
    rcases List.nodup_cons.mp hnd with ⟨hx, hxs⟩
    match k with
    | 0 =>
      simp only [List.set]
      exact List.nodup_cons.mpr
        ⟨fun hmem => hy (List.mem_cons_of_mem x hmem), hxs⟩
    | k + 1 =>
      simp only [List.set]
      refine List.nodup_cons.mpr
        ⟨?_, ih k hxs (fun hmem => hy (List.mem_cons_of_mem x hmem))⟩
      intro hmem
      rcases List.mem_or_eq_of_mem_set hmem with hmem' | he
      · exact hx hmem'
      · exact hy (he ▸ List.mem_cons_self x xs)

/-- C3: name uniqueness is an invariant of the collection — construction
rejects a duplicated name with `ValueError`, a successful construction has
pairwise-distinct names, `insert` and item assignment reject a present name
with `ValueError` and otherwise preserve distinctness, and deletion
preserves distinctness. -/
theorem C3_name_uniqueness_invariant :
    (∀ l : List Dataset, ¬ (l.map Dataset.name).Nodup →
      Datasets.init l = .error .valueError) ∧
    (∀ l c, Datasets.init l = .ok c → c = ⟨l⟩ ∧ c.names.Nodup) ∧
    (∀ (c : Datasets) idx d, d.name ∈ c.names →
      c.insert idx d = .error .valueError) ∧
    (∀ (c : Datasets) idx d c', c.names.Nodup → c.insert idx d = .ok c' →
      c'.names.Nodup) ∧
    (∀ (c : Datasets) k d, d.name ∈ c.names →
      c.setitem k d = .error .valueError) ∧
    (∀ (c : Datasets) k d c', c.names.Nodup → c.setitem k d = .ok c' →
      c'.names.Nodup) ∧
    (∀ (c : Datasets) k c', c.names.Nodup → c.delitem k = .ok c' →
      c'.names.Nodup) := by
  refine ⟨?_, ?_, ?_, ?_, ?_, ?_, ?_⟩
  · intro l hnd
    rcases checkUniqueNames_ok_or_err l [] with hok | herr
    · exact absurd ((checkUniqueNames_ok_iff l []).mp hok).1 hnd
    · rw [Datasets.init, herr]; rfl
  · intro l c he
    rcases checkUniqueNames_ok_or_err l [] with hok | herr
    · rw [Datasets.init, hok] at he
      injection he with he'
      refine ⟨he'.symm, ?_⟩
      rw [← he', Datasets.names]
      exact ((checkUniqueNames_ok_iff l []).mp hok).1
    · rw [Datasets.init, herr] at he
      cases he
  · intro c idx d h
    rw [Datasets.insert, if_pos h]
  · intro c idx d c' hnd he
    rw [Datasets.insert] at he
    by_cases h : d.name ∈ c.names
    · rw [if_pos h] at he; cases he
    · rw [if_neg h] at he
      injection he with he'
      rw [← he', Datasets.names]
      have hperm := (List.perm_insertIdx d c._datasets
        (min_le_right idx c._datasets.length)).map Dataset.name
      rw [(hperm.nodup_iff), List.map_cons, List.nodup_cons]
      exact ⟨h, hnd⟩
  · intro c k d h
    rw [Datasets.setitem, if_pos h]
  · intro c k d c' hnd he
    rw [Datasets.setitem] at he
    by_cases h : d.name ∈ c.names
    · rw [if_pos h] at he; cases he
    · rw [if_neg h] at he
      by_cases hk : k < c._datasets.length
      · rw [if_pos hk] at he
        injection he with he'
        rw [← he', Datasets.names, List.map_set]
        exact nodup_set_of_not_mem _ k _ hnd h
      · rw [if_neg hk] at he; cases he
  · intro c k c' hnd he
    rw [Datasets.delitem] at he
    by_cases hk : k < c._datasets.length
    · rw [if_pos hk] at he
      injection he with he'
      rw [← he', Datasets.names]
      exact ((List.eraseIdx_sublist c._datasets k).map Dataset.name).nodup hnd
    · rw [if_neg hk] at he; cases he

/-- C3 witness: the uniqueness behaviour at concrete collections. -/
theorem C3_name_uniqueness_invariant_witness :
    Datasets.init [dA, dA] = .error .valueError ∧
    (Datasets.mk [dA, dB] = ⟨[dA, dB]⟩ ∧ (Datasets.mk [dA, dB]).names.Nodup) ∧
    Datasets.insert ⟨[dA, dB]⟩ 0 dB = .error .valueError ∧
    (Datasets.mk [dA, dB]).names.Nodup ∧
    Datasets.setitem ⟨[dA, dB]⟩ 1 dA = .error .valueError ∧
    (Datasets.mk [dC, dB]).names.Nodup ∧
    (Datasets.mk [dB]).names.Nodup := by
  refine ⟨?_, ?_, ?_, ?_, ?_, ?_, ?_⟩
  · exact (C3_name_uniqueness_invariant).1 [dA, dA] (by decide)
  · exact (C3_name_uniqueness_invariant).2.1 [dA, dB] ⟨[dA, dB]⟩ (by rfl)
  · exact (C3_name_uniqueness_invariant).2.2.1 ⟨[dA, dB]⟩ 0 dB (by decide)
  · exact (C3_name_uniqueness_invariant).2.2.2.1 ⟨[dA]⟩ 1 dB ⟨[dA, dB]⟩
      (by decide) (by rfl)
  · exact (C3_name_uniqueness_invariant).2.2.2.2.1 ⟨[dA, dB]⟩ 1 dA (by decide)
  · exact (C3_name_uniqueness_invariant).2.2.2.2.2.1 ⟨[dA, dB]⟩ 0 dC ⟨[dC, dB]⟩
      (by decide) (by rfl)
  · exact (C3_name_uniqueness_invariant).2.2.2.2.2.2 ⟨[dA, dB]⟩ 0 ⟨[dB]⟩
      (by decide) (by rfl)

/-- C10: item assignment rejects with `ValueError` any dataset whose name is
already that of a member — in particular one with the name of the member
being replaced — and a failed assignment leaves the collection unchanged. -/
theorem C10_setitem_rejects_duplicate_name :
    (∀ (c : Datasets) (k : ℕ) (d : Dataset), d.name ∈ c.names →
      c.applySetitem k d = (c, some .valueError)) ∧
    (∀ (c : Datasets) (j : ℕ) (d : Dataset) (hj : j < c._datasets.length),
      d.name = (c._datasets.get ⟨j, hj⟩).name →
      c.applySetitem j d = (c, some .valueError)) := by
  have main : ∀ (c : Datasets) (k : ℕ) (d : Dataset), d.name ∈ c.names →
      c.applySetitem k d = (c, some .valueError) := by
    intro c k d h
    rw [Datasets.applySetitem, Datasets.setitem, if_pos h]
  refine ⟨main, ?_⟩
  intro c j d hj he
  apply main
  rw [Datasets.names, he]
  exact List.mem_map.mpr ⟨_, List.get_mem _ _ _, rfl⟩

/-- C10 witness: replacing member 0 of a concrete collection with a dataset
bearing that member's own name fails and leaves the collection unchanged. -/
theorem C10_setitem_rejects_duplicate_name_witness :
    ({ dC with name := "a" } : Dataset).name ∈ (Datasets.mk [dA, dB]).names ∧
    Datasets.applySetitem ⟨[dA, dB]⟩ 0 { dC with name := "a" }
      = (⟨[dA, dB]⟩, some .valueError) :=
  ⟨by decide, (C10_setitem_rejects_duplicate_name).1 ⟨[dA, dB]⟩ 0
    { dC with name := "a" } (by decide)⟩

/-- C5 counterexample: a collection holding two datasets of different Python
classes makes `stack_reduce` raise `ValueError`, not `TypeError`. -/
theorem C5_heterogeneous_counterexample :
    Datasets.stack_reduce ⟨[dA, dD]⟩ none "stacked" = .error .valueError ∧
      ErrKind.valueError ≠ ErrKind.typeError :=
  ⟨rfl, by decide⟩

/-- C5 (amended): `stack_reduce` fails with `ValueError` when the contained
datasets are not all of one type, and dispatches to the `stack` fold exactly
when they are homogeneous. -/
theorem C5_stack_reduce_type_check :
    (∀ (c : Datasets) (name : Option String) (fresh : String),
      c.is_all_same_type = false →
      c.stack_reduce name fresh = .error .valueError) ∧
    (∀ (c : Datasets) (name : Option String) (fresh : String) d rest,
      c.is_all_same_type = true → c._datasets = d :: rest →
      c.stack_reduce name fresh = rest.foldlM Dataset.stack (d.copy name fresh)) := by
  constructor
  · intro c name fresh h
    rw [Datasets.stack_reduce, if_pos h]
  · intro c name fresh d rest h hds
    rw [Datasets.stack_reduce, if_neg (by simp [h]), hds]

/-- C5 witness: the type check evaluated on a heterogeneous and on a
homogeneous concrete collection. -/
theorem C5_stack_reduce_type_check_witness :
    Datasets.stack_reduce ⟨[dA, dD]⟩ none "s" = .error .valueError ∧
    Datasets.stack_reduce ⟨[dA, dB]⟩ (some "stacked") "u"
      = [dB].foldlM Dataset.stack (dA.copy (some "stacked") "u") :=
  ⟨(C5_stack_reduce_type_check).1 ⟨[dA, dD]⟩ none "s" (by decide),
    (C5_stack_reduce_type_check).2 ⟨[dA, dB]⟩ (some "stacked") "u" dA [dB]
      (by decide) rfl⟩

/-- C6: stacking fails with an error when a dataset involved has no livetime
set (the response weighting is undefined there). -/
theorem C6_stack_without_livetime_errors (a b : Dataset)
    (h : a.livetime = none ∨ b.livetime = none) :
    a.stack b = .error .valueError := by
  rcases h with h | h <;> simp [Dataset.stack, h]

/-- C6 witness: stacking the concrete livetime-free dataset `dD` fails. -/
theorem C6_stack_without_livetime_errors_witness :
    (dD.livetime = none ∨ dA.livetime = none) ∧ dD.stack dA = .error .valueError :=
  ⟨Or.inl rfl, C6_stack_without_livetime_errors dD dA (Or.inl rfl)⟩

/-- Helper: the safe mask of a stacked dataset is the union of the inputs'. -/
theorem msafe_stackData (a b : Dataset) :
    (stackData a b).msafe = List.zipWith or a.msafe b.msafe := by
  simp [stackData, Dataset.msafe]

/-- Helper: the counts of a stacked dataset. -/
theorem counts_stackData (a b : Dataset) :
    (stackData a b).counts = List.zipWith (fun x y => x + y)
      (maskedNat a.counts a.msafe) (maskedNat b.counts b.msafe) := rfl

/-- Helper: the livetime of a stacked dataset is present. -/
theorem livetime_stackData (a b : Dataset) :
    (stackData a b).livetime = some (a.livetime.getD 0 + b.livetime.getD 0) := rfl

/-- Helper: stacking succeeds exactly on livetime-carrying datasets. -/
theorem stack_ok_of_livetime (a b : Dataset) (ta tb : ℚ)
    (hla : a.livetime = some ta) (hlb : b.livetime = some tb) :
    a.stack b = .ok (stackData a b) := by
  simp [Dataset.stack, hla, hlb]

/-- Helper: length of masked counts. -/
theorem maskedNat_length (xs : List ℕ) (m : List Bool) :
    (maskedNat xs m).length = min xs.length m.length := by
  simp [maskedNat]

/-- Helper: the masked-sum arithmetic behind associativity of stacking. -/
theorem add_mask_assoc (pa pb pc : Bool) (xa xb xc : ℕ) :
    (if pa || pb then (if pa then xa else 0) + (if pb then xb else 0) else 0)
        + (if pc then xc else 0)
      = (if pa then xa else 0)
        + (if pb || pc then (if pb then xb else 0) + (if pc then xc else 0) else 0) := by
  cases pa <;> cases pb <;> cases pc <;> simp [Nat.add_assoc]

/-- C8: stacking is associative in counts, integer-exactly, for datasets of
the same kind with livetimes set and same-shape counts and safe masks. -/
theorem C8_stack_counts_associative (a b c : Dataset) (n : ℕ) (ta tb tc : ℚ)
    (hla : a.livetime = some ta) (hlb : b.livetime = some tb)
    (hlc : c.livetime = some tc)
    (_hk1 : a.kind = b.kind) (_hk2 : b.kind = c.kind)
    (ha : a.counts.length = n) (hma : a.msafe.length = n)
    (hb : b.counts.length = n) (hmb : b.msafe.length = n)
    (hc : c.counts.length = n) (hmc : c.msafe.length = n) :
    ∃ ab bc abc1 abc2,
      a.stack b = .ok ab ∧ ab.stack c = .ok abc1 ∧
      b.stack c = .ok bc ∧ a.stack bc = .ok abc2 ∧
      abc1.counts = abc2.counts := by
  refine ⟨stackData a b, stackData b c, stackData (stackData a b) c,
    stackData a (stackData b c),
    stack_ok_of_livetime a b ta tb hla hlb,
    stack_ok_of_livetime (stackData a b) c _ tc (livetime_stackData a b) hlc,
    stack_ok_of_livetime b c tb tc hlb hlc,
    stack_ok_of_livetime a (stackData b c) ta _ hla (livetime_stackData b c),
    ?_⟩
  have hlab : (stackData a b).counts.length = n := by
    rw [counts_stackData, List.length_zipWith, maskedNat_length, maskedNat_length,
      ha, hma, hb, hmb]
    simp
  have hmab : (stackData a b).msafe.length = n := by
    rw [msafe_stackData, List.length_zipWith, hma, hmb]
    simp
  have hlbc : (stackData b c).counts.length = n := by
    rw [counts_stackData, List.length_zipWith, maskedNat_length, maskedNat_length,
      hb, hmb, hc, hmc]
    simp
  have hmbc : (stackData b c).msafe.length = n := by
    rw [msafe_stackData, List.length_zipWith, hmb, hmc]
    simp
  have hl1 : (stackData (stackData a b) c).counts.length = n := by
    rw [counts_stackData, List.length_zipWith, maskedNat_length, maskedNat_length,
      hlab, hmab, hc, hmc]
    simp
  have hl2 : (stackData a (stackData b c)).counts.length = n := by
    rw [counts_stackData, List.length_zipWith, maskedNat_length, maskedNat_length,
      ha, hma, hlbc, hmbc]
    simp
  apply List.ext_getElem (by rw [hl1, hl2])
  intro i h1 h2
  have hi : i < n := by rw [hl1] at h1; exact h1
  have hia : i < a.counts.length := by omega
  have hima : i < a.msafe.length := by omega
  have hib : i < b.counts.length := by omega
  have himb : i < b.msafe.length := by omega
  have hic : i < c.counts.length := by omega
  have himc : i < c.msafe.length := by omega
  simp only [counts_stackData, msafe_stackData, maskedNat, List.getElem_zipWith]
  exact add_mask_assoc (a.msafe.get ⟨i, hima⟩) (b.msafe.get ⟨i, himb⟩)
    (c.msafe.get ⟨i, himc⟩) (a.counts.get ⟨i, hia⟩) (b.counts.get ⟨i, hib⟩)
    (c.counts.get ⟨i, hic⟩)

/-- C8 witness: associativity of stacked counts on the concrete datasets
`dA`, `dB`, `dC`. -/
theorem C8_stack_counts_associative_witness :
    (dA.livetime = some 10 ∧ dB.livetime = some 5 ∧ dC.livetime = some 7 ∧
      dA.kind = dB.kind ∧ dB.kind = dC.kind ∧
      dA.counts.length = 3 ∧ dA.msafe.length = 3 ∧
      dB.counts.length = 3 ∧ dB.msafe.length = 3 ∧
      dC.counts.length = 3 ∧ dC.msafe.length = 3) ∧
    (∃ ab bc abc1 abc2,
      dA.stack dB = .ok ab ∧ ab.stack dC = .ok abc1 ∧
      dB.stack dC = .ok bc ∧ dA.stack bc = .ok abc2 ∧
      abc1.counts = abc2.counts) :=
  ⟨by decide,
    C8_stack_counts_associative dA dB dC 3 10 5 7 rfl rfl rfl rfl rfl
      (by decide) (by decide) (by decide) (by decide) (by decide) (by decide)⟩

/-- Helper: reading the id just written at the head of the heap. -/
theorem store_get_cons_self (i : ℕ) (a : Dataset) (s : Store) :
    Store.get? ((i, a) :: s) i = some a := by
  simp [Store.get?, List.find?_cons]

/-- Helper: a heap extended at a different id reads unchanged. -/
theorem store_get_cons_ne (i j : ℕ) (h : j ≠ i) (a : Dataset) (s : Store) :
    Store.get? ((i, a) :: s) j = Store.get? s j := by
  have hbe : (i == j) = false := beq_eq_false_iff_ne.mpr (Ne.symm h)
  simp [Store.get?, List.find?_cons, hbe]

/-- Helper: writing to a fresh id touches only the head cell. -/
theorem store_set_cons_fresh (s : Store) (freshId : ℕ) (a v : Dataset)
    (hfresh : ∀ p ∈ s, p.1 ≠ freshId) :
    Store.set ((freshId, a) :: s) freshId v = (freshId, v) :: s := by
  rw [Store.set, List.map_cons]
  have h2 : List.map (fun p => if p.1 == freshId then (freshId, v) else p) s
      = List.map id s := by
    apply List.map_congr_left
    intro p hp
    have hb : (p.1 == freshId) = false := beq_eq_false_iff_ne.mpr (hfresh p hp)
    simp [hb]
  rw [h2, List.map_id]
  simp

/-- Helper: the in-place stack step when both reads succeed. -/
theorem stackInPlace_eq (s : Store) (i j : ℕ) (a b : Dataset)
    (ha : Store.get? s i = some a) (hb : Store.get? s j = some b) :
    Store.stackInPlace s i j = Except.map (fun r => Store.set s i r) (a.stack b) := by
  unfold Store.stackInPlace
  rw [ha, hb]

/-- Helper: the `for ds in self[1:]` loop of `stack_reduce` over the heap —
the accumulator cell traverses the pure fold, and the rest of the heap is
passed through untouched. -/
theorem stackLoop_spec (s : Store) (freshId : ℕ)
    (hfresh : ∀ p ∈ s, p.1 ≠ freshId) :
    ∀ (rest : List ℕ) (acc r : Dataset),
      (∀ oid ∈ rest, oid ≠ freshId ∧ (Store.get? s oid).isSome = true) →
      (rest.filterMap (Store.get? s)).foldlM Dataset.stack acc = Except.ok r →
      rest.foldlM (fun st oid => Store.stackInPlace st freshId oid)
          ((freshId, acc) :: s) = Except.ok ((freshId, r) :: s) := by
  intro rest
  induction rest with
  | nil =>
    intro acc r _ hfold
    simp only [List.filterMap_nil, List.foldlM_nil] at hfold
    have h : (Except.ok acc : Except ErrKind Dataset) = Except.ok r := hfold
    injection h with h'
    rw [List.foldlM_nil, h']
    rfl
  | cons oid rest ih =>
    intro acc r hmem hfold
    obtain ⟨hne, hsome⟩ := hmem oid (List.mem_cons_self _ _)
    obtain ⟨dd, hdd⟩ := Option.isSome_iff_exists.mp hsome
    rw [List.filterMap_cons, hdd, List.foldlM_cons] at hfold
    cases hstk : Dataset.stack acc dd with
    | error e =>
      rw [hstk] at hfold
      exact Except.noConfusion
        (show (Except.error e : Except ErrKind Dataset) = Except.ok r from hfold)
    | ok acc2 =>
      rw [hstk] at hfold
      have hfold2 : (rest.filterMap (Store.get? s)).foldlM Dataset.stack acc2
          = Except.ok r := hfold
      have hstep : Store.stackInPlace ((freshId, acc) :: s) freshId oid
          = Except.ok ((freshId, acc2) :: s) := by
        rw [stackInPlace_eq ((freshId, acc) :: s) freshId oid acc dd
          (store_get_cons_self freshId acc s)
          (by rw [store_get_cons_ne freshId oid hne acc s]; exact hdd), hstk]
        show Except.ok (Store.set ((freshId, acc) :: s) freshId acc2) = _
        rw [store_set_cons_fresh s freshId acc acc2 hfresh]
      rw [List.foldlM_cons, hstep]
      show (rest.foldlM (fun st oid => Store.stackInPlace st freshId oid)
          ((freshId, acc2) :: s)) = _
      exact ih acc2 r (fun o ho => hmem o (List.mem_cons_of_mem _ ho)) hfold2

/-- C4: on a non-empty type-homogeneous collection, `stack_reduce` allocates
a deep copy of the first member at a fresh object id, folds `stack` over it
with the remaining members in order, returns that fold's result, and leaves
every object of the original heap — in particular every collection member —
unchanged. -/
theorem C4_stack_reduce_folds_copy_frame (s : Store) (ids : List ℕ)
    (freshId : ℕ) (name : Option String) (fresh : String) (i0 : ℕ)
    (rest : List ℕ) (d0 r : Dataset)
    (hids : ids = i0 :: rest)
    (hget : Store.get? s i0 = some d0)
    (hfresh : ∀ p ∈ s, p.1 ≠ freshId)
    (hrest : ∀ oid ∈ rest, oid ≠ freshId ∧ (Store.get? s oid).isSome = true)
    (hhom : (Datasets.mk (ids.filterMap (Store.get? s))).is_all_same_type = true)
    (hfold : (rest.filterMap (Store.get? s)).foldlM Dataset.stack
        (d0.copy name fresh) = .ok r) :
    Store.stackReduce s ids freshId name fresh = .ok ((freshId, r) :: s) ∧
    ∀ j, j ≠ freshId → Store.get? ((freshId, r) :: s) j = Store.get? s j := by
  subst hids
  refine ⟨?_, fun j hj => store_get_cons_ne freshId j hj r s⟩
  unfold Store.stackReduce
  rw [if_neg (by simp [hhom])]
  show (match Store.get? s i0 with
    | none => Except.error ErrKind.keyError
    | some d0 => List.foldlM (fun st oid => Store.stackInPlace st freshId oid)
        ((freshId, d0.copy name fresh) :: s) rest) = Except.ok ((freshId, r) :: s)
  rw [hget]
  exact stackLoop_spec s freshId hfresh rest (d0.copy name fresh) r hrest hfold

/-- C4 witness: reducing the concrete two-member heap `s0`; the copy of `dA`
is stacked with `dB` into `rAB` at the fresh id 2 and ids 0 and 1 read back
unchanged. -/
theorem C4_stack_reduce_folds_copy_frame_witness :
    Store.get? s0 0 = some dA ∧
    (∀ p ∈ s0, p.1 ≠ 2) ∧
    (∀ oid ∈ [1], oid ≠ 2 ∧ (Store.get? s0 oid).isSome = true) ∧
    (Datasets.mk ([0, 1].filterMap (Store.get? s0))).is_all_same_type = true ∧
    ([1].filterMap (Store.get? s0)).foldlM Dataset.stack
      (dA.copy (some "stk") "f") = .ok rAB ∧
    Store.stackReduce s0 [0, 1] 2 (some "stk") "f" = .ok ((2, rAB) :: s0) := by
  refine ⟨rfl, by decide, by decide, by decide, by with_unfolding_all rfl, ?_⟩
  exact (C4_stack_reduce_folds_copy_frame s0 [0, 1] 2 (some "stk") "f" 0 [1]
    dA rAB rfl rfl (by decide) (by decide) (by decide)
    (by with_unfolding_all rfl)).1

/-- Helper: decoding an elementwise-encoded list recovers it. -/
theorem decodeList_map_roundtrip {σ α : Type} (f : α → σ) (g : σ → Option α)
    (hg : ∀ a, g (f a) = some a) (l : List α) :
    decodeList g (l.map f) = some l := by
  induction l with
  | nil => rfl
  | cons x xs ih => simp [decodeList, hg, ih]

/-- Helper: decoding an encoded natural-number array. -/
theorem decodeNatList_roundtrip (l : List ℕ) :
    decodeNatList (.vlist (l.map Val.vnat)) = some l := by
  show decodeList decNat (l.map Val.vnat) = some l
  exact decodeList_map_roundtrip Val.vnat decNat (fun a => rfl) l

/-- Helper: decoding an encoded rational array. -/
theorem decodeRatList_roundtrip (l : List ℚ) :
    decodeRatList (.vlist (l.map Val.vrat)) = some l := by
  show decodeList decRat (l.map Val.vrat) = some l
  exact decodeList_map_roundtrip Val.vrat decRat (fun a => rfl) l

/-- Helper: decoding an encoded optional boolean array. -/
theorem decodeOptBool_roundtrip (o : Option (List Bool)) :
    decodeOptBool (optBoolVal o) = some o := by
  cases o with
  | none => rfl
  | some m =>
    show Option.map some (decodeList decBool (m.map Val.vbool)) = some (some m)
    rw [decodeList_map_roundtrip Val.vbool decBool (fun a => rfl) m]
    rfl

/-- Helper: decoding an encoded optional scalar. -/
theorem decodeOptRat_roundtrip (o : Option ℚ) :
    decodeOptRat (optRatVal o) = some o := by
  cases o <;> rfl

/-- Helper: one dataset survives the serialization round-trip unchanged. -/
theorem dict_to_dataset_roundtrip (d : Dataset) :
    dict_to_dataset (dataset_to_dict d) = some d := by
  obtain ⟨nm, k, ms, mf, sd, cs, co, lt⟩ := d
  simp only [dataset_to_dict, dict_to_dataset, decodeOptBool_roundtrip,
    decodeRatList_roundtrip, decodeNatList_roundtrip, decodeOptRat_roundtrip]

/-- Helper: the member list survives the round-trip unchanged. -/
theorem decodeList_dict_roundtrip (l : List Dataset) :
    decodeList dict_to_dataset (l.map dataset_to_dict) = some l :=
  decodeList_map_roundtrip dataset_to_dict dict_to_dataset
    dict_to_dataset_roundtrip l

/-- C9: writing a collection with distinct member names and reading it back
reproduces the collection — in particular the same length, the member names
in order, and each member's total counts. -/
theorem C9_write_read_roundtrip (c : Datasets) (h : c.names.Nodup) :
    Datasets.read (Datasets.write c) = .ok c ∧
    ∀ c', Datasets.read (Datasets.write c) = .ok c' →
      c'._datasets.length = c._datasets.length ∧
      c'.names = c.names ∧
      c'._datasets.map (fun d => d.counts.sum)
        = c._datasets.map (fun d => d.counts.sum) := by
  have hread : Datasets.read (Datasets.write c) = .ok c := by
    rw [Datasets.write]
    unfold Datasets.read
    rw [decodeList_dict_roundtrip]
    show Datasets.init c._datasets = Except.ok c
    have hok : checkUniqueNames c._datasets [] = .ok () :=
      (checkUniqueNames_ok_iff c._datasets []).mpr ⟨h, by simp⟩
    rw [Datasets.init, hok]
    rfl
  refine ⟨hread, ?_⟩
  intro c' he
  rw [hread] at he
  injection he with he'
  subst he'
  exact ⟨rfl, rfl, rfl⟩

/-- C9 witness: the round-trip evaluated on the concrete two-member
collection of `dA` and `dB`. -/
theorem C9_write_read_roundtrip_witness :
    (Datasets.mk [dA, dB]).names.Nodup ∧
    Datasets.read (Datasets.write ⟨[dA, dB]⟩) = .ok ⟨[dA, dB]⟩ :=
  ⟨by decide, (C9_write_read_roundtrip ⟨[dA, dB]⟩ (by decide)).1⟩
